import Mathlib

/-!
Verification of `src/index.js` of Grizak/trello-cron-organiser.

Time model: a JS `Date` is embedded as an integer number of milliseconds
since the local-clock epoch (Thursday, 1 January 1970, 00:00:00.000 local
time), with a uniform local clock (no DST jumps).  All divisors below are
positive, so Lean's Euclidean `/` and `%` on `Int` coincide with the
floor-division semantics of the JS date arithmetic being modelled.
-/

set_option autoImplicit false

/-- Number of milliseconds in one day. -/
def msPerDay : Int := 86400000

/-- JS `date.getDay()`: day of week, `0` = Sunday … `6` = Saturday.
Epoch day 0 (1 Jan 1970) was a Thursday, i.e. `getDay = 4`. -/
def getDay (t : Int) : Int := (t / msPerDay + 4) % 7

/-- Day-of-month (1-based) of a day number counted from the epoch,
computed by the standard civil-from-days algorithm on the proleptic
Gregorian calendar.  Embeds the calendar lookup behind JS `getDate()`. -/
def civilDayOfMonth (z : Int) : Int :=
  let z' := z + 719468
  let era := z' / 146097
  let doe := z' - era * 146097
  let yoe := (doe - doe / 1460 + doe / 36524 - doe / 146096) / 365
  let doy := doe - (365 * yoe + yoe / 4 - yoe / 100)
  let mp := (5 * doy + 2) / 153
  doy - (153 * mp + 2) / 5 + 1

/-- JS `date.getDate()`: day of month of the local date. -/
def getDate (t : Int) : Int := civilDayOfMonth (t / msPerDay)

/-- JS `date.setDate(n)`: sets the day of month to `n`, normalising
out-of-range values; on the timeline this shifts the instant by
`(n - getDate t)` whole days. -/
def setDate (t n : Int) : Int := t + (n - getDate t) * msPerDay

/-- Function `getStartOfDay` from `src/index.js:24-28`: `setHours(0,0,0,0)`. -/
def getStartOfDay (t : Int) : Int := t - t % msPerDay

/-- Function `getEndOfDay` from `src/index.js:30-34`: `setHours(23,59,59,999)`. -/
def getEndOfDay (t : Int) : Int := getStartOfDay t + (msPerDay - 1)

/-- The pair returned by `getWeekBoundaries` (`start`/`end` in the source;
`end` is a reserved word in Lean, so the second field is named `stop`). -/
@[ext]
structure WeekBounds where
  start : Int
  stop : Int
deriving Repr, DecidableEq

/-- Function `getWeekBoundaries` from `src/index.js:37-49`. -/
def getWeekBoundaries (date : Int) : WeekBounds :=
  let day := getDay date
  let diff := getDate date - day + (if day = 0 then -6 else 1)
  let weekStart := setDate date diff
  let weekEnd := setDate weekStart (getDate weekStart + 6)
  { start := getStartOfDay weekStart, stop := getEndOfDay weekEnd }

/-- The six bucket identifiers: the six string constants
`'Overdue' … 'Later'` that `determineTargetList` returns and that key
`LIST_MAPPING` (`src/index.js:14-21`). -/
inductive Bucket where
  | Overdue
  | Today
  | Tomorrow
  | ThisWeek
  | NextWeek
  | Later
deriving Repr, DecidableEq

/-- Function `determineTargetList` from `src/index.js:52-91`.  The source reads
`now` from the ambient clock (`new Date()`); here it is an explicit
argument.  A falsy `dueDate` (`null`/absent) is `none`. -/
def determineTargetList (dueDate : Option Int) (now : Int) : Bucket :=
  match dueDate with
  | none => .Later
  | some due =>
    let today := getStartOfDay now
    let tomorrow := setDate today (getDate today + 1)
    let currentWeek := getWeekBoundaries now
    let nextWeek := getWeekBoundaries (now + 7 * 24 * 60 * 60 * 1000)
    if due < today then .Overdue
    else if due ≥ today ∧ due < getEndOfDay today then .Today
    else if due ≥ tomorrow ∧ due < getEndOfDay tomorrow then .Tomorrow
    else if due ≥ getEndOfDay tomorrow ∧ due ≤ currentWeek.stop then .ThisWeek
    else if due ≥ nextWeek.start ∧ due ≤ nextWeek.stop then .NextWeek
    else .Later

/-- A board card as consumed by `organizeCards`: the `fields=id,name,due,idList`
projection requested in `getAllCards` (`src/index.js:97`). -/
structure Card where
  id : String
  name : String
  due : Option Int
  idList : String
deriving Repr, DecidableEq

/-- Observable side effects of one reconciliation pass, in order:
a `moveCard` PUT request (`src/index.js:182`, with its outcome),
the rate-limit sleep (`src/index.js:191`), and the
`console.warn` for a bucket with no configured list (`src/index.js:174`). -/
inductive Event where
  | moveReq (cardId listId : String) (ok : Bool)
  | sleep (ms : Nat)
  | warnNoList (targetListName : Bucket)
deriving Repr, DecidableEq

/-- State produced by one run of `organizeCards`: the two counters of
`src/index.js:166-167`, the event trace, and the board state after the
run (successful `moveCard` calls update the card's `idList` on the board;
failed ones leave it unchanged). -/
structure RunResult where
  movedCount : Nat
  errorCount : Nat
  trace : List Event
  cards : List Card
deriving Repr, DecidableEq

/-- The `for (const card of cards)` loop of `organizeCards`
(`src/index.js:169-193`).  `listMapping` is `LIST_MAPPING` (an entry is
`none` when its environment variable is unset); `mv` is the outcome of
`moveCard(cardId, listId)` — `true` when the PUT succeeds, `false` when
`moveCard` catches an error and returns `null`. -/
def organizeCardsLoop (listMapping : Bucket → Option String) (now : Int)
    (mv : String → String → Bool) : List Card → RunResult
  | [] => ⟨0, 0, [], []⟩
  | card :: rest =>
    let targetListName := determineTargetList card.due now
    match listMapping targetListName with
    | none =>
      let r := organizeCardsLoop listMapping now mv rest
      ⟨r.movedCount, r.errorCount, .warnNoList targetListName :: r.trace,
        card :: r.cards⟩
    | some targetListId =>
      if card.idList = targetListId then
        let r := organizeCardsLoop listMapping now mv rest
        ⟨r.movedCount, r.errorCount, r.trace, card :: r.cards⟩
      else
        let ok := mv card.id targetListId
        let card' := if ok then { card with idList := targetListId } else card
        let r := organizeCardsLoop listMapping now mv rest
        ⟨(if ok then 1 else 0) + r.movedCount,
          (if ok then 0 else 1) + r.errorCount,
          .moveReq card.id targetListId ok :: .sleep 100 :: r.trace,
          card' :: r.cards⟩

/-- Function `getAllCards` from `src/index.js:94-110`: the fetch either yields the
board's cards or throws a transport error; the `catch` block logs the
error and returns the empty array. -/
def getAllCards (fetched : Except String (List Card)) : List Card :=
  match fetched with
  | .ok cards => cards
  | .error _ => []

/-- Function `organizeCards` from `src/index.js:160-196`: list the cards, then run
the per-card loop over whatever `getAllCards` returned. -/
def organizeCards (fetched : Except String (List Card))
    (listMapping : Bucket → Option String) (now : Int)
    (mv : String → String → Bool) : RunResult :=
  organizeCardsLoop listMapping now mv (getAllCards fetched)

/-- The tallies in the completion log line
`Card organization complete. Moved: m, Errors: e` (`src/index.js:195`). -/
def summary (r : RunResult) : Nat × Nat := (r.movedCount, r.errorCount)

/-- Move requests issued during a run, extracted from the trace. -/
def movesOf : List Event → List (String × String)
  | [] => []
  | .moveReq i l _ :: es => (i, l) :: movesOf es
  | _ :: es => movesOf es

/-- Number of successful move requests in a trace. -/
def countOk : List Event → Nat
  | [] => 0
  | .moveReq _ _ true :: es => countOk es + 1
  | _ :: es => countOk es

/-- Number of failed move requests in a trace. -/
def countErr : List Event → Nat
  | [] => 0
  | .moveReq _ _ false :: es => countErr es + 1
  | _ :: es => countErr es

/-- Number of missing-list warnings in a trace. -/
def countWarn : List Event → Nat
  | [] => 0
  | .warnNoList _ :: es => countWarn es + 1
  | _ :: es => countWarn es

/-- Number of rate-limit sleeps in a trace. -/
def countSleep : List Event → Nat
  | [] => 0
  | .sleep _ :: es => countSleep es + 1
  | _ :: es => countSleep es

/-- The whole-day offset (in days) from `date` to the Monday anchor that
`getWeekBoundaries` computes: `-6` on Sundays, `1 - getDay date` otherwise. -/
def weekShift (t : Int) : Int := if getDay t = 0 then -6 else 1 - getDay t

/-- The week of §4.1 of the spec, rendered independently of the source:
`[Monday 00:00:00.000, Sunday 23:59:59.999]` of the Monday-start week
containing `t`.  The Monday anchor is `startOfDay t` minus the number of
days since Monday (`(getDay t + 6) % 7`, which is `6` on Sundays — the
Sunday-adjustment rule); the Sunday end is end-of-day of Monday + 6 days. -/
def weekOf (t : Int) : WeekBounds :=
  { start := getStartOfDay t - ((getDay t + 6) % 7) * msPerDay,
    stop := getEndOfDay (getStartOfDay t - ((getDay t + 6) % 7) * msPerDay
              + 6 * msPerDay) }

/-- The classifier exactly as §4.1 of the spec words it: first-match over
the ordered interval rules, with `currentWeek` the Monday-start week of
`now` and `nextWeek` the week containing `now + 7 days`.  Used only to be
compared against `determineTargetList`. -/
def classifySpec (dueDate : Option Int) (now : Int) : Bucket :=
  match dueDate with
  | none => .Later
  | some due =>
    let today := getStartOfDay now
    let tomorrow := today + msPerDay
    let currentWeek := weekOf now
    let nextWeek := weekOf (now + 7 * msPerDay)
    if due < today then .Overdue
    else if today ≤ due ∧ due < getEndOfDay today then .Today
    else if tomorrow ≤ due ∧ due < getEndOfDay tomorrow then .Tomorrow
    else if getEndOfDay tomorrow ≤ due ∧ due ≤ currentWeek.stop then .ThisWeek
    else if nextWeek.start ≤ due ∧ due ≤ nextWeek.stop then .NextWeek
    else .Later

/-- A card on which the loop will not perform a successful move: its
bucket has no configured list, or it already sits in the target list, or
`moveCard` fails on it. -/
def noMoveFor (listMapping : Bucket → Option String) (now : Int)
    (mv : String → String → Bool) (c : Card) : Prop :=
  match listMapping (determineTargetList c.due now) with
  | none => True
  | some t => c.idList = t ∨ mv c.id t = false

theorem setDate_getDate_add (t c : Int) :
    setDate t (getDate t + c) = t + c * msPerDay := by
  unfold setDate; ring

theorem getStartOfDay_add_mul (t k : Int) :
    getStartOfDay (t + k * msPerDay) = getStartOfDay t + k * msPerDay := by
  unfold getStartOfDay msPerDay; omega

theorem getStartOfDay_le (t : Int) : getStartOfDay t ≤ t := by
  unfold getStartOfDay msPerDay; omega

theorem getStartOfDay_idem (t : Int) :
    getStartOfDay (getStartOfDay t) = getStartOfDay t := by
  unfold getStartOfDay msPerDay; omega

theorem getDay_bounds (t : Int) : 0 ≤ getDay t ∧ getDay t < 7 := by
  unfold getDay msPerDay; omega

theorem getDay_add_week (t : Int) : getDay (t + 7 * msPerDay) = getDay t := by
  unfold getDay msPerDay; omega

theorem weekShift_bounds (t : Int) : -6 ≤ weekShift t ∧ weekShift t ≤ 0 := by
  have h := getDay_bounds t
  unfold weekShift
  split <;> omega

theorem weekShift_add_week (t : Int) : weekShift (t + 7 * msPerDay) = weekShift t := by
  unfold weekShift
  rw [getDay_add_week]

theorem getWeekBoundaries_start (t : Int) :
    (getWeekBoundaries t).start = getStartOfDay t + weekShift t * msPerDay := by
  simp only [getWeekBoundaries]
  have h1 : setDate t (getDate t - getDay t + (if getDay t = 0 then -6 else 1))
      = t + ((if getDay t = 0 then -6 else 1) - getDay t) * msPerDay := by
    unfold setDate; ring
  rw [h1, getStartOfDay_add_mul]
  have h2 : weekShift t = (if getDay t = 0 then -6 else 1) - getDay t := by
    by_cases h : getDay t = 0 <;> simp [weekShift, h]
  rw [h2]

theorem getWeekBoundaries_stop (t : Int) :
    (getWeekBoundaries t).stop = (getWeekBoundaries t).start + 7 * msPerDay - 1 := by
  simp only [getWeekBoundaries]
  have h1 : setDate t (getDate t - getDay t + (if getDay t = 0 then -6 else 1))
      = t + ((if getDay t = 0 then -6 else 1) - getDay t) * msPerDay := by
    unfold setDate; ring
  rw [h1]
  have h2 : setDate (t + ((if getDay t = 0 then -6 else 1) - getDay t) * msPerDay)
        (getDate (t + ((if getDay t = 0 then -6 else 1) - getDay t) * msPerDay) + 6)
      = t + (((if getDay t = 0 then -6 else 1) - getDay t) + 6) * msPerDay := by
    unfold setDate; ring
  rw [h2]
  unfold getEndOfDay
  rw [show t + (((if getDay t = 0 then -6 else 1) - getDay t) + 6) * msPerDay
      = t + ((if getDay t = 0 then -6 else 1) - getDay t) * msPerDay + 6 * msPerDay
    from by ring]
  rw [getStartOfDay_add_mul, getStartOfDay_add_mul]
  ring

theorem getStartOfDay_sod_add (t k : Int) :
    getStartOfDay (getStartOfDay t + k * msPerDay) = getStartOfDay t + k * msPerDay := by
  rw [getStartOfDay_add_mul, getStartOfDay_idem]

theorem weekOf_eq (t : Int) : weekOf t = getWeekBoundaries t := by
  have hb := getDay_bounds t
  have hmod : ((getDay t + 6) % 7 : Int) = -weekShift t := by
    unfold weekShift; split <;> omega
  ext
  · rw [weekOf, getWeekBoundaries_start, hmod]; ring
  · rw [weekOf, getWeekBoundaries_stop, getWeekBoundaries_start, hmod]
    simp only
    rw [show getStartOfDay t - -weekShift t * msPerDay + 6 * msPerDay
        = getStartOfDay t + (weekShift t + 6) * msPerDay from by ring]
    unfold getEndOfDay
    rw [getStartOfDay_sod_add]
    ring

/-- Claim C3: `determineTargetList` is total over all optional due values
and all `now` instants, returning exactly one of the six buckets, and it
coincides with the §4.1 specification: first-match evaluation of the
ordered interval rules on exact timestamps, with the Monday-start
current week (Sunday-adjustment rule) and the next week computed as the
week containing `now + 7` days. -/
theorem C3_classify_matches_spec : ∀ (dueDate : Option Int) (now : Int),
    determineTargetList dueDate now = classifySpec dueDate now := by
  intro dueDate now
  rcases dueDate with _ | due
  · rfl
  · simp only [determineTargetList, classifySpec, weekOf_eq, ge_iff_le]
    rw [show (7 : Int) * 24 * 60 * 60 * 1000 = 7 * msPerDay from by norm_num [msPerDay]]
    rw [setDate_getDate_add, one_mul]

/-- Claim C7: a card with no due date is always classified `Later`. -/
theorem C7_absent_due_later : ∀ now : Int,
    determineTargetList none now = .Later :=
  fun _ => rfl

/-- Claim C8, counterexample to its premise: even at a week boundary
(`now = 259200000`, Sunday 1970-01-04 00:00 local), no timestamp lies
strictly between `currentWeek.end` and `nextWeek.start` — the "gap" the
claim quantifies over is empty. -/
theorem C8_counterexample :
    ¬ ∃ due : Int, (getWeekBoundaries 259200000).stop < due
        ∧ due < (getWeekBoundaries (259200000 + 7 * 24 * 60 * 60 * 1000)).start := by
  rintro ⟨due, h1, h2⟩
  have e1 : (getWeekBoundaries 259200000).stop = 345599999 := by decide
  have e2 : (getWeekBoundaries (259200000 + 7 * 24 * 60 * 60 * 1000)).start
      = 345600000 := by decide
  omega

/-- Claim C8, amended: for every `now`, the `NextWeek` window starts
exactly 1 ms after the current week ends — `nextWeek.start =
currentWeek.end + 1` — so the two windows are adjacent and no due value
lies strictly between them; the claimed gap is empty and the conditional
"gap defaults to Later" holds only vacuously. -/
theorem C8_windows_adjacent : ∀ now : Int,
    (getWeekBoundaries (now + 7 * 24 * 60 * 60 * 1000)).start
      = (getWeekBoundaries now).stop + 1 := by
  intro now
  rw [show (7 : Int) * 24 * 60 * 60 * 1000 = 7 * msPerDay from by norm_num [msPerDay]]
  rw [getWeekBoundaries_start, getWeekBoundaries_stop, getWeekBoundaries_start,
    weekShift_add_week, getStartOfDay_add_mul]
  ring

/-- Claim C10: a due value exactly at end-of-day of the current day
(23:59:59.999 local) is classified `Later`, not `Today`: the `Today`
interval is half-open above, the `Tomorrow` interval starts at the next
midnight, and no later rule captures this timestamp. -/
theorem C10_endOfDay_due_later : ∀ now : Int,
    determineTargetList (some (getEndOfDay now)) now = .Later := by
  intro now
  simp only [determineTargetList]
  rw [setDate_getDate_add]
  rw [show (7 : Int) * 24 * 60 * 60 * 1000 = 7 * msPerDay from by norm_num [msPerDay]]
  rw [getWeekBoundaries_start, getWeekBoundaries_stop, getWeekBoundaries_start,
    weekShift_add_week, getStartOfDay_add_mul]
  have hw := weekShift_bounds now
  simp only [getEndOfDay, getStartOfDay_sod_add, getStartOfDay_idem]
  set S := getStartOfDay now with hS
  set w := weekShift now with hw2
  simp only [msPerDay] at *
  split_ifs <;> first | rfl | (exfalso; omega)

theorem loop_movedCount (m : Bucket → Option String) (now : Int)
    (mv : String → String → Bool) : ∀ cards : List Card,
    (organizeCardsLoop m now mv cards).movedCount
      = countOk (organizeCardsLoop m now mv cards).trace := by
  intro cards
  induction cards with
  | nil => rfl
  | cons c rest ih =>
    simp only [organizeCardsLoop]
    cases hm : m (determineTargetList c.due now) with
    | none => simpa [countOk] using ih
    | some tid =>
      by_cases hin : c.idList = tid
      · simpa [hin, countOk] using ih
      · by_cases hok : mv c.id tid
        · simp [hin, hok, countOk, ih, Nat.add_comm]
        · simp [hin, hok, countOk, ih, Nat.add_comm]

theorem loop_errorCount (m : Bucket → Option String) (now : Int)
    (mv : String → String → Bool) : ∀ cards : List Card,
    (organizeCardsLoop m now mv cards).errorCount
      = countErr (organizeCardsLoop m now mv cards).trace := by
  intro cards
  induction cards with
  | nil => rfl
  | cons c rest ih =>
    simp only [organizeCardsLoop]
    cases hm : m (determineTargetList c.due now) with
    | none => simpa [countErr] using ih
    | some tid =>
      by_cases hin : c.idList = tid
      · simpa [hin, countErr] using ih
      · by_cases hok : mv c.id tid
        · simp [hin, hok, countErr, ih, Nat.add_comm]
        · simp [hin, hok, countErr, ih, Nat.add_comm]

theorem loop_cards_length (m : Bucket → Option String) (now : Int)
    (mv : String → String → Bool) : ∀ cards : List Card,
    (organizeCardsLoop m now mv cards).cards.length = cards.length := by
  intro cards
  induction cards with
  | nil => rfl
  | cons c rest ih =>
    simp only [organizeCardsLoop]
    cases hm : m (determineTargetList c.due now) with
    | none => simpa using ih
    | some tid =>
      by_cases hin : c.idList = tid
      · simpa [hin] using ih
      · simp [hin, ih]

theorem loop_countWarn (m : Bucket → Option String) (now : Int)
    (mv : String → String → Bool) : ∀ cards : List Card,
    countWarn (organizeCardsLoop m now mv cards).trace
      = (cards.filter fun c => (m (determineTargetList c.due now)).isNone).length := by
  intro cards
  induction cards with
  | nil => rfl
  | cons c rest ih =>
    simp only [organizeCardsLoop]
    cases hm : m (determineTargetList c.due now) with
    | none => simp [countWarn, ih, List.filter_cons, hm]
    | some tid =>
      by_cases hin : c.idList = tid
      · simp [hin, countWarn, ih, List.filter_cons, hm]
      · by_cases hok : mv c.id tid
        · simp [hin, hok, countWarn, ih, List.filter_cons, hm]
        · simp [hin, hok, countWarn, ih, List.filter_cons, hm]

theorem loop_post_noMove (m : Bucket → Option String) (now : Int)
    (mv : String → String → Bool) : ∀ cards : List Card,
    ∀ c ∈ (organizeCardsLoop m now mv cards).cards, noMoveFor m now mv c := by
  intro cards
  induction cards with
  | nil => intro c hc; simp [organizeCardsLoop] at hc
  | cons c rest ih =>
    intro d hd
    cases hm : m (determineTargetList c.due now) with
    | none =>
      simp only [organizeCardsLoop, hm, List.mem_cons] at hd
      rcases hd with rfl | hd
      · unfold noMoveFor; rw [hm]; trivial
      · exact ih d hd
    | some tid =>
      by_cases hin : c.idList = tid
      · simp only [organizeCardsLoop, hm, if_pos hin, List.mem_cons] at hd
        rcases hd with rfl | hd
        · unfold noMoveFor; rw [hm]; exact Or.inl hin
        · exact ih d hd
      · simp only [organizeCardsLoop, hm, if_neg hin, List.mem_cons] at hd
        rcases hd with rfl | hd
        · by_cases hok : mv c.id tid
          · simp [noMoveFor, hm, hok]
          · simp only [Bool.not_eq_true] at hok
            simp [noMoveFor, hm, hok]
        · exact ih d hd

theorem loop_noMove_moves_zero (m : Bucket → Option String) (now : Int)
    (mv : String → String → Bool) : ∀ cards : List Card,
    (∀ c ∈ cards, noMoveFor m now mv c) →
    (organizeCardsLoop m now mv cards).movedCount = 0 := by
  intro cards
  induction cards with
  | nil => intro _; rfl
  | cons c rest ih =>
    intro h
    have hc := h c (List.mem_cons_self c rest)
    have hrest : ∀ d ∈ rest, noMoveFor m now mv d :=
      fun d hd => h d (List.mem_cons_of_mem c hd)
    unfold noMoveFor at hc
    cases hm : m (determineTargetList c.due now) with
    | none => simp [organizeCardsLoop, hm, ih hrest]
    | some tid =>
      rw [hm] at hc
      by_cases hin : c.idList = tid
      · simp [organizeCardsLoop, hm, hin, ih hrest]
      · rcases hc with hc | hc
        · exact absurd hc hin
        · simp [organizeCardsLoop, hm, hin, hc, ih hrest]

/-- Claim C1, counterexample: when listing the cards fails with a
transport error, the run does not abort with a run-level failure — the
error is caught inside `getAllCards`, which returns an empty collection,
and `organizeCards` completes normally with an ordinary
`moved = 0, failed = 0` summary (and, indeed, no move requests). -/
theorem C1_counterexample :
    getAllCards (Except.error "ECONNREFUSED") = []
    ∧ organizeCards (Except.error "ECONNREFUSED")
        (fun _ => some "list1") 0 (fun _ _ => true)
        = { movedCount := 0, errorCount := 0, trace := [], cards := [] } :=
  ⟨rfl, rfl⟩

/-- Claim C1, amended: when listing the cards fails, `getAllCards`
catches the error (logging it) and returns the empty collection, so the
run does not fail at run level: it completes normally over zero cards,
issues no move requests, and reports the ordinary summary
`moved = 0, failed = 0`. -/
theorem C1_transport_error_swallowed :
    ∀ (e : String) (m : Bucket → Option String) (now : Int)
      (mv : String → String → Bool),
    getAllCards (.error e) = []
    ∧ organizeCards (.error e) m now mv
        = { movedCount := 0, errorCount := 0, trace := [], cards := [] } :=
  fun _ _ _ _ => ⟨rfl, rfl⟩

/-- Claim C2, counterexample: the run's summary does not contain a
skipped tally.  A run that configuration-skipped one card (its bucket
unmapped, one warning emitted) produces exactly the same summary as a
run over an empty board that skipped nothing, so no skipped count is
part of the reported tallies. -/
theorem C2_counterexample :
    summary (organizeCards
        (.ok [{ id := "a", name := "A", due := none, idList := "x" }])
        (fun _ => none) 0 (fun _ _ => true))
      = summary (organizeCards (.ok []) (fun _ => none) 0 (fun _ _ => true))
    ∧ countWarn (organizeCards
        (.ok [{ id := "a", name := "A", due := none, idList := "x" }])
        (fun _ => none) 0 (fun _ _ => true)).trace = 1 :=
  ⟨rfl, rfl⟩

/-- Claim C2, amended: every completed run produces a summary of exactly
the two tallies `moved` and `failed` (the number of successful and of
failed move requests, even when some moves failed); configuration-skipped
cards are reported by one per-card warning each, but are not counted in
the summary. -/
theorem C2_summary_tallies :
    ∀ (m : Bucket → Option String) (now : Int)
      (mv : String → String → Bool) (cards : List Card),
    summary (organizeCardsLoop m now mv cards)
      = (countOk (organizeCardsLoop m now mv cards).trace,
         countErr (organizeCardsLoop m now mv cards).trace)
    ∧ countWarn (organizeCardsLoop m now mv cards).trace
        = (cards.filter
            fun c => (m (determineTargetList c.due now)).isNone).length := by
  intro m now mv cards
  refine ⟨?_, loop_countWarn m now mv cards⟩
  unfold summary
  rw [loop_movedCount, loop_errorCount]

/-- Claim C4: reconciliation is idempotent.  First, a card already
sitting in the list mapped to its bucket is processed without any move
request, tally change, or delay — the run over it is the run over the
remaining cards with the card passed through unchanged.  Second, running
the loop again on the board state left by a previous run (same mapping,
same clock, same move outcomes) yields `moved = 0`. -/
theorem C4_idempotent :
    (∀ (m : Bucket → Option String) (now : Int) (mv : String → String → Bool)
        (c : Card) (rest : List Card) (t : String),
      m (determineTargetList c.due now) = some t → c.idList = t →
      organizeCardsLoop m now mv (c :: rest)
        = { organizeCardsLoop m now mv rest with
            cards := c :: (organizeCardsLoop m now mv rest).cards })
    ∧ (∀ (m : Bucket → Option String) (now : Int) (mv : String → String → Bool)
        (cards : List Card),
      (organizeCardsLoop m now mv
          (organizeCardsLoop m now mv cards).cards).movedCount = 0) := by
  constructor
  · intro m now mv c rest t hm hin
    simp [organizeCardsLoop, hm, hin]
  · intro m now mv cards
    exact loop_noMove_moves_zero m now mv _ (loop_post_noMove m now mv cards)

/-- Witness for C4 at a concrete input: a single card already in the
list mapped to its bucket is passed through with no move. -/
theorem C4_idempotent_witness :
    organizeCardsLoop (fun _ => some "L") 0 (fun _ _ => true)
        [{ id := "a", name := "A", due := none, idList := "L" }]
      = { organizeCardsLoop (fun _ => some "L") 0 (fun _ _ => true) [] with
          cards := [{ id := "a", name := "A", due := none, idList := "L" }] } :=
  C4_idempotent.1 (fun _ => some "L") 0 (fun _ _ => true)
    { id := "a", name := "A", due := none, idList := "L" } [] "L" rfl rfl

/-- Claim C5: an individual move failure never aborts the run.  In
general the loop processes every card of the collection (the board state
it returns is as long as its input), its `moved` tally counts exactly
the successful move requests and its `failed` tally exactly the failed
ones.  In particular, on four cards A, B, C, D all needing a move, where
the moves of B and D fail while those of A and C succeed, all four move
requests are issued and the run reports `moved = 2, failed = 2`. -/
theorem C5_failure_isolation :
    (∀ (m : Bucket → Option String) (now : Int)
        (mv : String → String → Bool) (cards : List Card),
      (organizeCardsLoop m now mv cards).cards.length = cards.length
      ∧ (organizeCardsLoop m now mv cards).movedCount
          = countOk (organizeCardsLoop m now mv cards).trace
      ∧ (organizeCardsLoop m now mv cards).errorCount
          = countErr (organizeCardsLoop m now mv cards).trace)
    ∧ (summary (organizeCards
          (.ok [{ id := "a", name := "A", due := none, idList := "x" },
                { id := "b", name := "B", due := none, idList := "x" },
                { id := "c", name := "C", due := none, idList := "x" },
                { id := "d", name := "D", due := none, idList := "x" }])
          (fun _ => some "L") 0 (fun i _ => i == "a" || i == "c")) = (2, 2)
      ∧ (movesOf (organizeCards
          (.ok [{ id := "a", name := "A", due := none, idList := "x" },
                { id := "b", name := "B", due := none, idList := "x" },
                { id := "c", name := "C", due := none, idList := "x" },
                { id := "d", name := "D", due := none, idList := "x" }])
          (fun _ => some "L") 0 (fun i _ => i == "a" || i == "c")).trace).length
          = 4) := by
  constructor
  · intro m now mv cards
    exact ⟨loop_cards_length m now mv cards, loop_movedCount m now mv cards,
      loop_errorCount m now mv cards⟩
  · exact ⟨by decide, by decide⟩

/-- Claim C6: a card whose bucket has no entry in the list mapping is
configuration-skipped: the warning for that bucket is recorded (reported,
not silently dropped), no move request is issued for the card, neither
tally changes — in particular it is not counted as failed — and the
remaining cards are processed exactly as before. -/
theorem C6_missing_mapping_skips :
    ∀ (m : Bucket → Option String) (now : Int)
      (mv : String → String → Bool) (c : Card) (rest : List Card),
    m (determineTargetList c.due now) = none →
    organizeCardsLoop m now mv (c :: rest)
      = { movedCount := (organizeCardsLoop m now mv rest).movedCount,
          errorCount := (organizeCardsLoop m now mv rest).errorCount,
          trace := .warnNoList (determineTargetList c.due now)
                    :: (organizeCardsLoop m now mv rest).trace,
          cards := c :: (organizeCardsLoop m now mv rest).cards }
    ∧ movesOf (organizeCardsLoop m now mv (c :: rest)).trace
        = movesOf (organizeCardsLoop m now mv rest).trace := by
  intro m now mv c rest hm
  constructor
  · simp [organizeCardsLoop, hm]
  · simp [organizeCardsLoop, hm, movesOf]

/-- Witness for C6 at a concrete input: with an empty list mapping, the
single card is skipped with one warning and no move. -/
theorem C6_missing_mapping_skips_witness :
    organizeCardsLoop (fun _ => none) 0 (fun _ _ => true)
        [{ id := "a", name := "A", due := none, idList := "x" }]
      = { movedCount := 0, errorCount := 0,
          trace := [.warnNoList Bucket.Later], cards :=
            [{ id := "a", name := "A", due := none, idList := "x" }] }
    ∧ movesOf (organizeCardsLoop (fun _ => none) 0 (fun _ _ => true)
        [{ id := "a", name := "A", due := none, idList := "x" }]).trace = [] :=
  C6_missing_mapping_skips (fun _ => none) 0 (fun _ _ => true)
    { id := "a", name := "A", due := none, idList := "x" } [] rfl

/-- Claim C9: after each move attempt — successful or failed — the loop
records the 100 ms rate-limit sleep immediately after the move request
and before any event of the remaining cards, while a card skipped for a
missing mapping or already correctly placed contributes no sleep. -/
theorem C9_delay_follows_moves :
    ∀ (m : Bucket → Option String) (now : Int)
      (mv : String → String → Bool) (c : Card) (rest : List Card),
    (∀ t : String, m (determineTargetList c.due now) = some t →
      c.idList ≠ t →
      (organizeCardsLoop m now mv (c :: rest)).trace
        = .moveReq c.id t (mv c.id t) :: .sleep 100
            :: (organizeCardsLoop m now mv rest).trace)
    ∧ (∀ t : String, m (determineTargetList c.due now) = some t →
      c.idList = t →
      (organizeCardsLoop m now mv (c :: rest)).trace
        = (organizeCardsLoop m now mv rest).trace)
    ∧ (m (determineTargetList c.due now) = none →
      (organizeCardsLoop m now mv (c :: rest)).trace
        = .warnNoList (determineTargetList c.due now)
            :: (organizeCardsLoop m now mv rest).trace) := by
  intro m now mv c rest
  refine ⟨?_, ?_, ?_⟩
  · intro t hm hin
    simp [organizeCardsLoop, hm, hin]
  · intro t hm hin
    simp [organizeCardsLoop, hm, hin]
  · intro hm
    simp [organizeCardsLoop, hm]

/-- Witness for C9 at a concrete input: one misplaced card yields exactly
a move request immediately followed by the 100 ms sleep. -/
theorem C9_delay_follows_moves_witness :
    (organizeCardsLoop (fun _ => some "L") 0 (fun _ _ => true)
        [{ id := "a", name := "A", due := none, idList := "x" }]).trace
      = [.moveReq "a" "L" true, .sleep 100] :=
  (C9_delay_follows_moves (fun _ => some "L") 0 (fun _ _ => true)
      { id := "a", name := "A", due := none, idList := "x" } []).1
    "L" rfl (by decide)

